import Mathlib

/-
Verification of the QA metric-computation core of the fMRI_report_python
repository.  The numeric pipeline of qa_memory_optimized.py,
qa_with_metrics.py and qa_with_tr_detection.py is shallowly embedded:
voxel data are exact rationals, numpy float results are real numbers
(np.sqrt becomes Real.sqrt), and the NaN produced by an empty-selection
np.mean is modelled as Option.none.
-/

namespace QA

/-- Shape and contents of a 4D acquisition, as consumed by
process_data_memory_optimized and process_data_with_metrics:
a dense (x, y, z, t) array of intensities.  All dimensions are
positive (spec section 3 invariant). -/
structure Volume4D where
  X : ℕ
  Y : ℕ
  Z : ℕ
  T : ℕ
  hX : 0 < X
  hY : 0 < Y
  hZ : 0 < Z
  hT : 0 < T
  data : Fin X → Fin Y → Fin Z → Fin T → ℚ

/-- Voxel-wise temporal mean over the time axis:
np.mean(data, axis=3) at qa_memory_optimized.py line 96 / 131. -/
def temporalMean (v : Volume4D) (x : Fin v.X) (y : Fin v.Y) (z : Fin v.Z) : ℚ :=
  (∑ t, v.data x y z t) / v.T

/-- Voxel-wise temporal population variance (numpy default ddof=0),
the square of np.std(data, axis=3) at qa_memory_optimized.py line 132. -/
def temporalVar (v : Volume4D) (x : Fin v.X) (y : Fin v.Y) (z : Fin v.Z) : ℚ :=
  (∑ t, (v.data x y z t - temporalMean v x y z) ^ 2) / v.T

/-- Voxel-wise temporal standard deviation, np.std(data, axis=3):
the square root of the population variance. -/
noncomputable def temporalStd (v : Volume4D) (x : Fin v.X) (y : Fin v.Y) (z : Fin v.Z) : ℝ :=
  Real.sqrt (temporalVar v x y z)

/-- tSNR map of qa_memory_optimized.py lines 138-140:
np.divide(temporal_mean, temporal_std, out=np.zeros_like(temporal_mean),
where=temporal_std!=0). -/
noncomputable def tsnr (v : Volume4D) (x : Fin v.X) (y : Fin v.Y) (z : Fin v.Z) : ℝ :=
  if temporalStd v x y z ≠ 0 then (temporalMean v x y z : ℝ) / temporalStd v x y z else 0

/-! Ernst-angle scaling: the three implementations in the source. -/

/-- get_ernst_scaling of qa_with_metrics.py lines 41-52 (None maps to 1.0). -/
def ernstScalingMetrics : Option ℚ → ℚ
  | none => 1
  | some tr =>
    if tr ≤ 0.7 then 0.5745
    else if tr ≤ 1 then 0.7071
    else if tr ≤ 1.5 then 0.8155
    else 1

/-- get_ernst_scaling of qa_with_tr_detection.py lines 79-91. -/
def ernstScalingTrDetection (tr : ℚ) : ℚ :=
  if tr ≤ 0.7 then 0.5745
  else if tr ≤ 1 then 0.7071
  else if tr ≤ 1.5 then 0.8155
  else 1

/-- Keys of the tr_scaling dict of calculate_ernst_scaling,
qa_memory_optimized.py lines 53-58, in dict insertion order. -/
def trScalingKeys : List ℚ := [1.4, 2.0, 2.026, 2.2]

/-- calculate_ernst_scaling of qa_memory_optimized.py lines 50-65: picks the
dict key closest to tr (Python min keeps the first key on ties) and returns
its scaling value; keys 2.0, 2.026 and 2.2 all map to 1.0. -/
def calculateErnstScalingMemOpt (tr : ℚ) : ℚ :=
  let closest := trScalingKeys.foldl (fun best x => if |x - tr| < |best - tr| then x else best) 1.4
  if closest = 1.4 then 0.5745
  else if closest = 2.0 then 1.0
  else if closest = 2.026 then 1.0
  else if closest = 2.2 then 1.0
  else 0

/-- Step function stated by the spec (section 4.6 breakpoint table). -/
def ernstStepSpec (tr : ℚ) : ℚ :=
  if tr ≤ 0.7 then 0.5745
  else if tr ≤ 1 then 0.7071
  else if tr ≤ 1.5 then 0.8155
  else 1

/-! Concrete volumes used to witness the theorems below. -/

/-- Degenerate 1 by 1 by 1 by 2 volume, constant intensity 10: every voxel has
zero temporal standard deviation. -/
def vConst : Volume4D :=
  ⟨1, 1, 1, 2, by norm_num, by norm_num, by norm_num, by norm_num, fun _ _ _ _ => 10⟩

/-- All-zero 1 by 1 by 1 by 2 volume: maximal mean intensity is 0, so the
heuristic brain mask selects no voxels. -/
def vZero : Volume4D :=
  ⟨1, 1, 1, 2, by norm_num, by norm_num, by norm_num, by norm_num, fun _ _ _ _ => 0⟩

/-- C1: in the tSNR map of process_data_memory_optimized, a voxel with zero
temporal standard deviation gets exactly 0, and a voxel with nonzero standard
deviation gets temporal_mean / temporal_std. -/
theorem tsnr_zero_guard (v : Volume4D) (x : Fin v.X) (y : Fin v.Y) (z : Fin v.Z) :
    (temporalStd v x y z = 0 → tsnr v x y z = 0) ∧
    (temporalStd v x y z ≠ 0 →
      tsnr v x y z = (temporalMean v x y z : ℝ) / temporalStd v x y z) := by
  constructor <;> intro h <;> simp [tsnr, h]

/-- Witness for C1: the constant volume has temporal_std 0 at its voxel and the
tSNR entry there is exactly 0. -/
theorem tsnr_zero_guard_witness :
    temporalStd vConst ⟨0, vConst.hX⟩ ⟨0, vConst.hY⟩ ⟨0, vConst.hZ⟩ = 0 ∧
    tsnr vConst ⟨0, vConst.hX⟩ ⟨0, vConst.hY⟩ ⟨0, vConst.hZ⟩ = 0 := by
  have h : temporalStd vConst ⟨0, vConst.hX⟩ ⟨0, vConst.hY⟩ ⟨0, vConst.hZ⟩ = 0 := by
    simp [temporalStd, temporalVar, temporalMean, vConst]
  exact ⟨h, (tsnr_zero_guard vConst _ _ _).1 h⟩

/-- Counterexample for C3: the claim says every TR-to-Ernst-scaling mapping of
the repository sends 0.71 to 0.7071, but calculate_ernst_scaling of
qa_memory_optimized.py (nearest-key lookup in a dict with keys 1.4, 2.0,
2.026, 2.2) sends 0.71 to 0.5745. -/
theorem ernst_memopt_not_step_function :
    calculateErnstScalingMemOpt 0.71 = 0.5745 ∧ (0.5745 : ℚ) ≠ 0.7071 := by
  constructor
  · norm_num [calculateErnstScalingMemOpt, trScalingKeys, abs_of_pos, abs_of_neg, abs_of_nonneg]
  · norm_num

/-- C3 amended: the two get_ernst_scaling implementations (qa_with_metrics.py
and qa_with_tr_detection.py) are exactly the four-breakpoint step function of
the spec, and that step function takes the eight tabulated values; the
nearest-key calculate_ernst_scaling of qa_memory_optimized.py does not follow
the table (see the counterexample). -/
theorem ernst_step_function_amended :
    (∀ tr : ℚ, ernstScalingMetrics (some tr) = ernstStepSpec tr) ∧
    (∀ tr : ℚ, ernstScalingTrDetection tr = ernstStepSpec tr) ∧
    (ernstScalingTrDetection 0.5 = 0.5745 ∧ ernstScalingTrDetection 0.7 = 0.5745 ∧
     ernstScalingTrDetection 0.71 = 0.7071 ∧ ernstScalingTrDetection 1.0 = 0.7071 ∧
     ernstScalingTrDetection 1.01 = 0.8155 ∧ ernstScalingTrDetection 1.5 = 0.8155 ∧
     ernstScalingTrDetection 1.51 = 1.0 ∧ ernstScalingTrDetection 3.0 = 1.0) := by
  refine ⟨fun tr => rfl, fun tr => rfl, ?_⟩
  norm_num [ernstScalingTrDetection]


/-- Starts of the Z-axis chunks: Python range(0, nz, chunk_size) in
process_data_memory_optimized (lines 126 and 163). -/
def chunkStarts (nz c : ℕ) : List ℕ :=
  (List.range ((nz + c - 1) / c)).map fun i => c * i

/-- Iterated region-write loop: starting from an initial array, each chunk
start zs overwrites the entries with z in [zs, min (zs + c) nz) with the
chunk's value.  This is the shape of the chunked loops of
process_data_memory_optimized. -/
def writeChunked {X Y Z : ℕ} {b : Type} (L : List ℕ) (c : ℕ)
    (W : (zs : ℕ) → Fin X → Fin Y → (z : Fin Z) → zs ≤ z.val ∧ z.val < min (zs + c) Z → b)
    (init : Fin X → Fin Y → Fin Z → b) : Fin X → Fin Y → Fin Z → b :=
  L.foldl
    (fun acc zs x y z =>
      if h : zs ≤ z.val ∧ z.val < min (zs + c) Z then W zs x y z h else acc x y z)
    init

/-- Chunked temporal mean of qa_memory_optimized.py lines 123-131:
temporal_mean starts as np.zeros and each chunk writes
np.mean(data[:, :, z_start:z_end, :], axis=3), whose entry at local offset
z - z_start is the temporal mean of the voxel's full time series. -/
def chunkedTemporalMean (v : Volume4D) (c : ℕ) : Fin v.X → Fin v.Y → Fin v.Z → ℚ :=
  writeChunked (chunkStarts v.Z c) c
    (fun zs x y z h => temporalMean v x y ⟨zs + (z.val - zs), by omega⟩)
    fun _ _ _ => 0

/-- Chunked temporal variance (square of the chunked np.std writes of
qa_memory_optimized.py line 132). -/
def chunkedTemporalVar (v : Volume4D) (c : ℕ) : Fin v.X → Fin v.Y → Fin v.Z → ℚ :=
  writeChunked (chunkStarts v.Z c) c
    (fun zs x y z h => temporalVar v x y ⟨zs + (z.val - zs), by omega⟩)
    fun _ _ _ => 0

/-- Chunked temporal standard deviation of qa_memory_optimized.py lines
124-132: temporal_std starts as np.zeros and each chunk writes
np.std(data[:, :, z_start:z_end, :], axis=3). -/
noncomputable def chunkedTemporalStd (v : Volume4D) (c : ℕ) :
    Fin v.X → Fin v.Y → Fin v.Z → ℝ :=
  writeChunked (chunkStarts v.Z c) c
    (fun zs x y z h => Real.sqrt (temporalVar v x y ⟨zs + (z.val - zs), by omega⟩))
    fun _ _ _ => 0

lemma writeChunked_apply {X Y Z : ℕ} {b : Type} (L : List ℕ) (c : ℕ)
    (W : (zs : ℕ) → Fin X → Fin Y → (z : Fin Z) → zs ≤ z.val ∧ z.val < min (zs + c) Z → b)
    (init : Fin X → Fin Y → Fin Z → b) (x : Fin X) (y : Fin Y) (z : Fin Z) :
    writeChunked L c W init x y z =
      L.foldl
        (fun acc zs =>
          if h : zs ≤ z.val ∧ z.val < min (zs + c) Z then W zs x y z h else acc)
        (init x y z) := by
  induction L generalizing init with
  | nil => rfl
  | cons a l ih =>
    simp only [writeChunked, List.foldl_cons] at ih ⊢
    exact ih _

lemma foldl_dite_const {b : Type} (cov : ℕ → Prop) [DecidablePred cov]
    (W : (zs : ℕ) → cov zs → b) (w : b) (L : List ℕ)
    (hW : ∀ zs ∈ L, ∀ h : cov zs, W zs h = w) :
    L.foldl (fun acc zs => if h : cov zs then W zs h else acc) w = w := by
  induction L with
  | nil => rfl
  | cons a l ih =>
    simp only [List.foldl_cons]
    by_cases h : cov a
    · rw [dif_pos h, hW a (List.mem_cons_self a l) h]
      exact ih fun zs hzs hc => hW zs (List.mem_cons_of_mem a hzs) hc
    · rw [dif_neg h]
      exact ih fun zs hzs hc => hW zs (List.mem_cons_of_mem a hzs) hc

lemma foldl_dite_write {b : Type} (cov : ℕ → Prop) [DecidablePred cov]
    (W : (zs : ℕ) → cov zs → b) (w : b) (L : List ℕ)
    (hW : ∀ zs ∈ L, ∀ h : cov zs, W zs h = w)
    (hex : ∃ zs ∈ L, cov zs) (b0 : b) :
    L.foldl (fun acc zs => if h : cov zs then W zs h else acc) b0 = w := by
  induction L generalizing b0 with
  | nil => exact absurd hex (by simp)
  | cons a l ih =>
    simp only [List.foldl_cons]
    by_cases h : cov a
    · rw [dif_pos h, hW a (List.mem_cons_self a l) h]
      exact foldl_dite_const cov W w l fun zs hzs hc => hW zs (List.mem_cons_of_mem a hzs) hc
    · rw [dif_neg h]
      rcases hex with ⟨zs, hzs, hc⟩
      rcases List.mem_cons.1 hzs with rfl | hzs'
      · exact absurd hc h
      · exact ih (fun zs hzs hc => hW zs (List.mem_cons_of_mem a hzs) hc) ⟨zs, hzs', hc⟩ b0

/-- The chunk start c * (n / c) belongs to range(0, nz, c) and its chunk
covers index n. -/
lemma chunkStart_covers (nz c : ℕ) (hc : 0 < c) (n : ℕ) (hn : n < nz) :
    c * (n / c) ∈ chunkStarts nz c ∧ c * (n / c) ≤ n ∧ n < min (c * (n / c) + c) nz := by
  have hceil : nz ≤ ((nz + c - 1) / c) * c := by
    have h2 : nz + c - 1 < ((nz + c - 1) / c) * c + c := by
      calc nz + c - 1 < ((nz + c - 1) / c + 1) * c :=
            (Nat.div_lt_iff_lt_mul hc).1 (Nat.lt_succ_self _)
        _ = ((nz + c - 1) / c) * c + c := by ring
    generalize hm : ((nz + c - 1) / c) * c = m at h2 ⊢
    omega
  have hmem : c * (n / c) ∈ chunkStarts nz c := by
    refine List.mem_map.2 ⟨n / c, List.mem_range.2 ?_, rfl⟩
    exact (Nat.div_lt_iff_lt_mul hc).2 (lt_of_lt_of_le hn hceil)
  have hle : c * (n / c) ≤ n := by
    have := Nat.div_mul_le_self n c
    generalize hm : (n / c) * c = m at this
    rw [Nat.mul_comm, hm]
    exact this
  have hlt : n < c * (n / c) + c := by
    have h3 : n < (n / c + 1) * c := (Nat.div_lt_iff_lt_mul hc).1 (Nat.lt_succ_self _)
    have h4 : (n / c + 1) * c = (n / c) * c + c := by ring
    rw [Nat.mul_comm]
    omega
  exact ⟨hmem, hle, by omega⟩

/-- A chunk start listed by range(0, nz, c) that covers index n is the
canonical one. -/
lemma chunkStart_unique (nz c : ℕ) (n zs : ℕ)
    (hmem : zs ∈ chunkStarts nz c) (h : zs ≤ n ∧ n < min (zs + c) nz) :
    zs = c * (n / c) := by
  rcases List.mem_map.1 hmem with ⟨i, _, rfl⟩
  have hdiv : n / c = i := by
    refine Nat.div_eq_of_lt_le ?_ ?_
    · rw [Nat.mul_comm]; exact h.1
    · have : n < c * i + c := by omega
      have h4 : (i + 1) * c = c * i + c := by ring
      omega
  rw [hdiv]


/-- Reconstructing a covered global index from its chunk-local offset gives
back the index. -/
lemma mk_cover_eq {n : ℕ} (zs : ℕ) (z : Fin n) (hle : zs ≤ z.val)
    (h : zs + (z.val - zs) < n) : (⟨zs + (z.val - zs), h⟩ : Fin n) = z :=
  Fin.ext (show zs + (z.val - zs) = z.val by omega)

/-- C2: for every chunk size, the chunked temporal mean and temporal standard
deviation arrays of process_data_memory_optimized agree exactly with the
whole-array (non-chunked) computation at every voxel. -/
theorem chunked_stats_eq (v : Volume4D) (c : ℕ) (hc : 0 < c)
    (x : Fin v.X) (y : Fin v.Y) (z : Fin v.Z) :
    chunkedTemporalMean v c x y z = temporalMean v x y z ∧
    chunkedTemporalStd v c x y z = temporalStd v x y z := by
  obtain ⟨hmem, hle, hlt⟩ := chunkStart_covers v.Z c hc z.val z.isLt
  constructor
  · rw [chunkedTemporalMean, writeChunked_apply]
    refine foldl_dite_write _ _ _ _ ?_ ⟨_, hmem, hle, hlt⟩ _
    intro zs _ h
    rw [mk_cover_eq zs z h.1]
  · rw [chunkedTemporalStd, writeChunked_apply]
    refine foldl_dite_write _ _ _ _ ?_ ⟨_, hmem, hle, hlt⟩ _
    intro zs _ h
    rw [mk_cover_eq zs z h.1, temporalStd]

/-- Witness for C2 at the constant volume with chunk size 1. -/
theorem chunked_stats_eq_witness :
    0 < 1 ∧
    (chunkedTemporalMean vConst 1 ⟨0, vConst.hX⟩ ⟨0, vConst.hY⟩ ⟨0, vConst.hZ⟩ =
        temporalMean vConst ⟨0, vConst.hX⟩ ⟨0, vConst.hY⟩ ⟨0, vConst.hZ⟩ ∧
      chunkedTemporalStd vConst 1 ⟨0, vConst.hX⟩ ⟨0, vConst.hY⟩ ⟨0, vConst.hZ⟩ =
        temporalStd vConst ⟨0, vConst.hX⟩ ⟨0, vConst.hY⟩ ⟨0, vConst.hZ⟩) :=
  ⟨Nat.one_pos, chunked_stats_eq vConst 1 Nat.one_pos _ _ _⟩


/-- Flattened list of all voxel indices of the spatial grid, in C order. -/
def allVoxels (v : Volume4D) : List (Fin v.X × Fin v.Y × Fin v.Z) :=
  (List.finRange v.X).flatMap fun x =>
    (List.finRange v.Y).flatMap fun y =>
      (List.finRange v.Z).map fun z => (x, y, z)

/-- Voxel indices of the Z-axis chunk [zs, ze), the region addressed by
temporal_mean[:, :, z_start:z_end] in process_data_memory_optimized. -/
def chunkVoxels (v : Volume4D) (zs ze : ℕ) : List (Fin v.X × Fin v.Y × Fin v.Z) :=
  (List.finRange v.X).flatMap fun x =>
    (List.finRange v.Y).flatMap fun y =>
      ((List.finRange v.Z).filter fun z => decide (zs ≤ z.val ∧ z.val < ze)).map fun z =>
        (x, y, z)

/-- Maximum of the temporal mean over a chunk, np.max(chunk_mean) at
qa_memory_optimized.py line 172.  The 0 default for an empty chunk is inert:
np.max rejects empty input and the pipeline only forms nonempty chunks. -/
def chunkMaxMean (v : Volume4D) (zs ze : ℕ) : ℚ :=
  match (chunkVoxels v zs ze).map fun p => temporalMean v p.1 p.2.1 p.2.2 with
  | [] => 0
  | a :: l => l.foldl max a

/-- Background voxels of a chunk, qa_memory_optimized.py line 172:
chunk_mean < 0.05 * np.max(chunk_mean). -/
def backgroundVoxels (v : Volume4D) (zs ze : ℕ) : List (Fin v.X × Fin v.Y × Fin v.Z) :=
  (chunkVoxels v zs ze).filter fun p =>
    decide (temporalMean v p.1 p.2.1 p.2.2 < 0.05 * chunkMaxMean v zs ze)

/-- Insertion into a sorted list of reals (ascending). -/
noncomputable def insertSorted (a : ℝ) : List ℝ → List ℝ
  | [] => [a]
  | x :: l => if a ≤ x then a :: x :: l else x :: insertSorted a l

/-- Ascending sort of a list of reals. -/
noncomputable def sortReal (l : List ℝ) : List ℝ := l.foldr insertSorted []

/-- Median in the numpy sense: sort; take the middle element for odd length,
the average of the two middle elements for even length. -/
noncomputable def npMedian (l : List ℝ) : ℝ :=
  let s := sortReal l
  if s.length % 2 = 1 then s.getD (s.length / 2) 0
  else (s.getD (s.length / 2 - 1) 0 + s.getD (s.length / 2) 0) / 2

/-- Noise level of a chunk, qa_memory_optimized.py lines 170-176: median of
the temporal standard deviation over the chunk's background voxels, falling
back to 0.1 times the median over the whole chunk when no background voxel
exists. -/
noncomputable def noiseLevel (v : Volume4D) (zs ze : ℕ) : ℝ :=
  if backgroundVoxels v zs ze ≠ [] then
    npMedian ((backgroundVoxels v zs ze).map fun p => temporalStd v p.1 p.2.1 p.2.2)
  else
    npMedian ((chunkVoxels v zs ze).map fun p => temporalStd v p.1 p.2.1 p.2.2) * 0.1

/-- Per-chunk iSNR values, qa_memory_optimized.py lines 179-181:
np.divide(chunk_mean, noise_level, out=np.zeros_like(chunk_mean),
where=chunk_mean > 0). -/
noncomputable def chunkIsnr (v : Volume4D) (zs ze : ℕ)
    (x : Fin v.X) (y : Fin v.Y) (z : Fin v.Z) : ℝ :=
  if 0 < temporalMean v x y z then (temporalMean v x y z : ℝ) / noiseLevel v zs ze else 0

/-- Chunked iSNR map of qa_memory_optimized.py lines 161-186: isnr_map starts
as np.zeros and each chunk [zs, min (zs + c) nz) writes its iSNR values. -/
noncomputable def isnrMap (v : Volume4D) (c : ℕ) : Fin v.X → Fin v.Y → Fin v.Z → ℝ :=
  writeChunked (chunkStarts v.Z c) c
    (fun zs x y z _ => chunkIsnr v zs (min (zs + c) v.Z) x y z)
    fun _ _ _ => 0

/-- Start of the chunk containing slice index n when chunking by c. -/
def zChunkStart (c n : ℕ) : ℕ := c * (n / c)

/-- Noise level of the chunk containing slice z. -/
noncomputable def noiseLevelAt (v : Volume4D) (c : ℕ) (z : Fin v.Z) : ℝ :=
  noiseLevel v (zChunkStart c z.val) (min (zChunkStart c z.val + c) v.Z)


/-- C5: in the iSNR map of process_data_memory_optimized, a voxel with
non-positive temporal mean gets exactly 0, and a voxel with positive temporal
mean gets temporal_mean divided by the noise level of its chunk. -/
theorem isnr_zero_guard (v : Volume4D) (c : ℕ) (hc : 0 < c)
    (x : Fin v.X) (y : Fin v.Y) (z : Fin v.Z) :
    (temporalMean v x y z ≤ 0 → isnrMap v c x y z = 0) ∧
    (0 < temporalMean v x y z →
      isnrMap v c x y z = (temporalMean v x y z : ℝ) / noiseLevelAt v c z) := by
  obtain ⟨hmem, hle, hlt⟩ := chunkStart_covers v.Z c hc z.val z.isLt
  have hmain : isnrMap v c x y z =
      chunkIsnr v (zChunkStart c z.val) (min (zChunkStart c z.val + c) v.Z) x y z := by
    rw [isnrMap, writeChunked_apply]
    refine foldl_dite_write _ _ _ _ ?_ ⟨_, hmem, hle, hlt⟩ _
    intro zs hzs h
    rw [chunkStart_unique v.Z c z.val zs hzs h]
    rfl
  constructor
  · intro h
    rw [hmain, chunkIsnr, if_neg (not_lt.2 h)]
  · intro h
    rw [hmain, chunkIsnr, if_pos h, noiseLevelAt]

/-- Witness for C5: the all-zero volume has non-positive temporal mean at its
voxel, and the iSNR entry there (chunk size 1) is exactly 0. -/
theorem isnr_zero_guard_witness :
    0 < 1 ∧ temporalMean vZero ⟨0, vZero.hX⟩ ⟨0, vZero.hY⟩ ⟨0, vZero.hZ⟩ ≤ 0 ∧
    isnrMap vZero 1 ⟨0, vZero.hX⟩ ⟨0, vZero.hY⟩ ⟨0, vZero.hZ⟩ = 0 := by
  have hm : temporalMean vZero ⟨0, vZero.hX⟩ ⟨0, vZero.hY⟩ ⟨0, vZero.hZ⟩ ≤ 0 := by
    simp [temporalMean, vZero]
  exact ⟨Nat.one_pos, hm, (isnr_zero_guard vZero 1 Nat.one_pos _ _ _).1 hm⟩

/-- C7: the BackgroundRegionNoise policy of process_data_memory_optimized.
Background voxels of a chunk are exactly those whose temporal mean is below
0.05 times the chunk's maximal mean; with background present the noise level
is the median temporal standard deviation over background voxels, otherwise
it is 0.1 times the median over all voxels of the chunk. -/
theorem noise_level_policy (v : Volume4D) (zs ze : ℕ) :
    (∀ p, p ∈ backgroundVoxels v zs ze ↔
        p ∈ chunkVoxels v zs ze ∧
          temporalMean v p.1 p.2.1 p.2.2 < 0.05 * chunkMaxMean v zs ze) ∧
    (backgroundVoxels v zs ze ≠ [] →
      noiseLevel v zs ze =
        npMedian ((backgroundVoxels v zs ze).map fun p => temporalStd v p.1 p.2.1 p.2.2)) ∧
    (backgroundVoxels v zs ze = [] →
      noiseLevel v zs ze =
        0.1 * npMedian ((chunkVoxels v zs ze).map fun p => temporalStd v p.1 p.2.1 p.2.2)) := by
  refine ⟨?_, ?_, ?_⟩
  · intro p
    rw [backgroundVoxels, List.mem_filter, decide_eq_true_eq]
  · intro h
    rw [noiseLevel, if_pos h]
  · intro h
    rw [noiseLevel, if_neg (not_not_intro h), mul_comm]

/-- Witness for C7: the all-zero volume's single-slice chunk has no background
voxels, so the fallback noise level is used. -/
theorem noise_level_policy_witness :
    backgroundVoxels vZero 0 1 = [] ∧
    noiseLevel vZero 0 1 =
      0.1 * npMedian ((chunkVoxels vZero 0 1).map fun p => temporalStd vZero p.1 p.2.1 p.2.2) := by
  have hlist : chunkVoxels vZero 0 1 = [(⟨0, vZero.hX⟩, ⟨0, vZero.hY⟩, ⟨0, vZero.hZ⟩)] := by
    decide
  have hmax : chunkMaxMean vZero 0 1 = 0 := by
    rw [chunkMaxMean, hlist]
    simp [temporalMean, vZero]
  have hm0 : ∀ (x : Fin vZero.X) (y : Fin vZero.Y) (z : Fin vZero.Z),
      temporalMean vZero x y z = 0 := fun x y z => by simp [temporalMean, vZero]
  have hbg : backgroundVoxels vZero 0 1 = [] := by
    rw [backgroundVoxels, hlist]
    simp [hm0, hmax]
  exact ⟨hbg, (noise_level_policy vZero 0 1).2.2 hbg⟩


/-- Last-time-axis truncation imgm_cla[:, :, :, :-1] of qa_with_metrics.py
line 117 (and qa_run_nophase_V2.py line 361), dropping the noise-calibration
volume; meaningful for at least two time points (spec section 3 invariant). -/
def dropLastVolume (v : Volume4D) (h2 : 2 ≤ v.T) : Volume4D :=
  ⟨v.X, v.Y, v.Z, v.T - 1, v.hX, v.hY, v.hZ, by omega,
   fun x y z t => v.data x y z (Fin.castLE (Nat.sub_le v.T 1) t)⟩

/-- Modelled from the spec: the tsnr_map attribute of the snr.Tsnr class
(module fMRI_report_python.functions.snr, imported by qa_with_metrics.py but
absent from the repository sources).  Spec section 4.4: temporal_mean /
temporal_std where temporal_std is nonzero, else 0 - the same formula as the
in-repository tsnr of qa_memory_optimized.py. -/
noncomputable def snrTsnrMap (v : Volume4D) : Fin v.X → Fin v.Y → Fin v.Z → ℝ :=
  tsnr v

/-- np.mean over a list of values; the NaN numpy produces for an empty
selection is modelled as none. -/
noncomputable def npMeanR : List ℝ → Option ℝ
  | [] => none
  | a :: l => some ((a :: l).sum / ((a :: l).length : ℝ))

/-- mean_tsnr = np.mean(tsnr_obj_cla.tsnr_map) of qa_with_metrics.py line 121
(qa_run_nophase_V2.py line 372): the plain mean over every entry of the map. -/
noncomputable def metricsMeanTsnr (v : Volume4D) : Option ℝ :=
  npMeanR ((allVoxels v).map fun p => snrTsnrMap v p.1 p.2.1 p.2.2)

/-- masked_tsnr = np.mean(tsnr_map[mask_data > 0]) of qa_with_metrics.py
lines 136-137 (qa_run_nophase_V2.py lines 382-383). -/
noncomputable def metricsMaskedTsnr (v : Volume4D)
    (m : Fin v.X → Fin v.Y → Fin v.Z → ℚ) : Option ℝ :=
  npMeanR (((allVoxels v).filter fun p => decide (0 < m p.1 p.2.1 p.2.2)).map
    fun p => snrTsnrMap v p.1 p.2.1 p.2.2)

/-- Reduction asserted by the claim (spec section 4.4): the mean over the
nonzero tSNR entries only. -/
noncomputable def meanNonzeroTsnrSpec (v : Volume4D) : Option ℝ :=
  npMeanR (((allVoxels v).map fun p => snrTsnrMap v p.1 p.2.1 p.2.2).filter
    fun r => decide (r ≠ 0))

/-- np.max(mean_img) over the whole volume, qa_memory_optimized.py line 151.
The 0 default for an empty list is inert: the volume dimensions are
positive. -/
def volMaxMean (v : Volume4D) : ℚ :=
  match (allVoxels v).map fun p => temporalMean v p.1 p.2.1 p.2.2 with
  | [] => 0
  | a :: l => l.foldl max a

/-- Heuristic brain mask of qa_memory_optimized.py line 151:
mean_img > 0.1 * np.max(mean_img). -/
def brainMaskMemOpt (v : Volume4D) (x : Fin v.X) (y : Fin v.Y) (z : Fin v.Z) : Prop :=
  0.1 * volMaxMean v < temporalMean v x y z

instance (v : Volume4D) (x : Fin v.X) (y : Fin v.Y) (z : Fin v.Z) :
    Decidable (brainMaskMemOpt v x y z) := by
  unfold brainMaskMemOpt
  infer_instance

/-- mean_tsnr = np.mean(tsnr_scaled[brain_mask]) of qa_memory_optimized.py
line 152, with tsnr_scaled = tsnr * ernst_scaling (line 143). -/
noncomputable def memOptMeanTsnr (v : Volume4D) (ernst : ℚ) : Option ℝ :=
  npMeanR (((allVoxels v).filter fun p => decide (brainMaskMemOpt v p.1 p.2.1 p.2.2)).map
    fun p => tsnr v p.1 p.2.1 p.2.2 * (ernst : ℝ))

/-- Python truthiness of the TR variable: None and 0.0 are falsy. -/
def trTruthy : Option ℚ → Bool
  | none => false
  | some t => decide (t ≠ 0)

/-- tsnr_per_unit_time of qa_with_metrics.py lines 126-131:
mean_tsnr / sqrt(TR) when TR is truthy, else the explicit None marker. -/
noncomputable def tsnrPerUnitTime : Option ℚ → ℝ → Option ℝ
  | none, _ => none
  | some t, mt => if t ≠ 0 then some (mt / Real.sqrt (t : ℚ)) else none

/-- Output record of process_data_with_metrics (the metrics dict):
optional fields model keys that may be absent or None. -/
structure QaRecord where
  tr : Option ℚ
  ernst_factor : ℚ
  processing_successful : Bool
  error : Option String
  tsnr : Option ℝ
  tsnr_per_unit_time : Option ℝ
  masked_tsnr : Option ℝ

/-- Control flow of process_data_with_metrics, qa_with_metrics.py: the
metrics dict is created with processing_successful = True and the Ernst
factor before the try block (lines 63-76); the try block computes mean tsnr,
tsnr-per-unit-time and the optional masked tsnr (modelled by outcome); on an
exception the flag is set to False and str(e) recorded (lines 156-159); the
dict is returned in both cases (line 168). -/
noncomputable def processWithMetrics (tr : Option ℚ)
    (outcome : Except String (ℝ × Option ℝ)) : QaRecord :=
  let ef := if trTruthy tr then ernstScalingMetrics tr else 1
  match outcome with
  | Except.ok r =>
    { tr := tr, ernst_factor := ef, processing_successful := true, error := none,
      tsnr := some r.1, tsnr_per_unit_time := tsnrPerUnitTime tr r.1, masked_tsnr := r.2 }
  | Except.error e =>
    { tr := tr, ernst_factor := ef, processing_successful := false, error := some e,
      tsnr := none, tsnr_per_unit_time := none, masked_tsnr := none }

/-- TR resolution of process_data_nophase, qa_with_tr_detection.py lines
99-105: an absent TR falls back to the JSON sidecar value and then to the
hard default 1.4. -/
def resolveTRTrdet (tr jsonTr : Option ℚ) : ℚ :=
  match tr with
  | some t => t
  | none =>
    match jsonTr with
    | some t => t
    | none => 1.4

/-- Ernst factor used by process_data_nophase, qa_with_tr_detection.py
line 110. -/
def trdetErnstFactor (tr jsonTr : Option ℚ) : ℚ :=
  ernstScalingTrDetection (resolveTRTrdet tr jsonTr)

/-- Uniform scalar rescaling of the input data, as done by
imgm_cla = imgm_cla * ernst_factor at qa_with_metrics.py line 67. -/
def scaleVolume (c : ℚ) (v : Volume4D) : Volume4D :=
  ⟨v.X, v.Y, v.Z, v.T, v.hX, v.hY, v.hZ, v.hT, fun x y z t => c * v.data x y z t⟩

/-- Volume with shape 1 by 1 by 2 by 3 whose truncated time series are (0, 2)
at z = 0 and (5, 5) at z = 1: the tSNR map over the first two time points has
one nonzero and one zero entry. -/
def vMix : Volume4D :=
  ⟨1, 1, 2, 3, by norm_num, by norm_num, by norm_num, by norm_num,
   fun _ _ z t =>
     if z.val = 0 then (if t.val = 0 then 0 else if t.val = 1 then 2 else 0) else 5⟩

lemma vMixT2 : 2 ≤ vMix.T := by norm_num [vMix]

lemma sum_fin_eq_two {n : ℕ} (hn : n = 2) (f : Fin n → ℚ) :
    (∑ t, f t) = f ⟨0, by omega⟩ + f ⟨1, by omega⟩ := by
  subst hn
  rw [Fin.sum_univ_two]
  rfl

lemma temporalMean_two (v : Volume4D) (hT : v.T = 2)
    (x : Fin v.X) (y : Fin v.Y) (z : Fin v.Z) :
    temporalMean v x y z =
      (v.data x y z ⟨0, by omega⟩ + v.data x y z ⟨1, by omega⟩) / 2 := by
  rw [temporalMean, sum_fin_eq_two hT, show ((v.T : ℚ)) = 2 by rw [hT]; norm_num]

lemma temporalVar_two (v : Volume4D) (hT : v.T = 2)
    (x : Fin v.X) (y : Fin v.Y) (z : Fin v.Z) :
    temporalVar v x y z =
      ((v.data x y z ⟨0, by omega⟩ - temporalMean v x y z) ^ 2 +
        (v.data x y z ⟨1, by omega⟩ - temporalMean v x y z) ^ 2) / 2 := by
  rw [temporalVar, sum_fin_eq_two hT, show ((v.T : ℚ)) = 2 by rw [hT]; norm_num]


/-- Counterexample for C4: with TR absent (and no JSON value),
process_data_nophase of qa_with_tr_detection.py substitutes the default
TR = 1.4 and uses Ernst factor 0.8155, not 1.0. -/
theorem absent_tr_uses_default_in_trdet :
    resolveTRTrdet none none = 1.4 ∧ trdetErnstFactor none none = 0.8155 ∧
    (0.8155 : ℚ) ≠ 1 := by
  refine ⟨rfl, ?_, by norm_num⟩
  norm_num [trdetErnstFactor, resolveTRTrdet, ernstScalingTrDetection]

/-- C4 amended: in process_data_with_metrics an absent TR gives Ernst factor
1.0 and an explicitly undefined tsnr_per_unit_time (None, distinguishable
from any number, in particular from 0.0), with no exception raised; but
process_data_nophase of qa_with_tr_detection.py instead substitutes the
default TR = 1.4 (see the counterexample). -/
theorem absent_tr_metrics_amended (outcome : Except String (ℝ × Option ℝ)) :
    (processWithMetrics none outcome).ernst_factor = 1 ∧
    (processWithMetrics none outcome).tsnr_per_unit_time = none ∧
    (∀ r : ℝ, (processWithMetrics none outcome).tsnr_per_unit_time ≠ some r) ∧
    resolveTRTrdet none none = 1.4 := by
  cases outcome <;>
    simp [processWithMetrics, trTruthy, tsnrPerUnitTime, resolveTRTrdet]

/-- C9: process_data_with_metrics always returns a metrics record; its
processing_successful flag is False exactly when the computation raised, and
in that case an error description is attached. -/
theorem qa_record_always_produced (tr : Option ℚ)
    (outcome : Except String (ℝ × Option ℝ)) :
    ((processWithMetrics tr outcome).processing_successful = false ↔
      ∃ e, outcome = Except.error e) ∧
    ((processWithMetrics tr outcome).processing_successful = false →
      ∃ e, (processWithMetrics tr outcome).error = some e) := by
  cases outcome <;> simp [processWithMetrics]

/-- Witness for C9 at a concrete failed outcome. -/
theorem qa_record_always_produced_witness :
    ∃ e, (processWithMetrics none (Except.error "boom")).error = some e :=
  (qa_record_always_produced none (Except.error "boom")).2
    ((qa_record_always_produced none (Except.error "boom")).1.mpr ⟨"boom", rfl⟩)

/-- C8 evaluation: on the all-zero volume the heuristic brain mask of
process_data_memory_optimized selects no voxels and the masked tSNR mean is
the empty-selection np.mean, i.e. NaN (modelled none); no error condition is
raised anywhere in that code path. -/
theorem empty_mask_mean_is_nan :
    ((allVoxels vZero).filter fun p => decide (brainMaskMemOpt vZero p.1 p.2.1 p.2.2)) = [] ∧
    memOptMeanTsnr vZero 1 = none := by
  have hm0 : ∀ (x : Fin vZero.X) (y : Fin vZero.Y) (z : Fin vZero.Z),
      temporalMean vZero x y z = 0 := fun x y z => by simp [temporalMean, vZero]
  have hvox : allVoxels vZero = [(⟨0, vZero.hX⟩, ⟨0, vZero.hY⟩, ⟨0, vZero.hZ⟩)] := by
    decide
  have hmax : volMaxMean vZero = 0 := by
    rw [volMaxMean, hvox]
    simp [hm0]
  have hfil : ((allVoxels vZero).filter
      fun p => decide (brainMaskMemOpt vZero p.1 p.2.1 p.2.2)) = [] := by
    rw [hvox]
    simp [brainMaskMemOpt, hm0, hmax]
  exact ⟨hfil, by rw [memOptMeanTsnr, hfil]; rfl⟩


/-- Truncated mixed volume: imgm_cla_nn = vMix[:, :, :, :-1]. -/
def vMixNN : Volume4D := dropLastVolume vMix vMixT2

lemma vMixNN_tsnr_z0 :
    snrTsnrMap vMixNN ⟨0, by decide⟩ ⟨0, by decide⟩ ⟨0, by decide⟩ = 1 := by
  have hmean : temporalMean vMixNN ⟨0, by decide⟩ ⟨0, by decide⟩ ⟨0, by decide⟩ = 1 := by
    rw [temporalMean_two vMixNN rfl]
    simp [vMixNN, dropLastVolume, vMix, Fin.castLE]
    try norm_num
  have hvar : temporalVar vMixNN ⟨0, by decide⟩ ⟨0, by decide⟩ ⟨0, by decide⟩ = 1 := by
    rw [temporalVar_two vMixNN rfl, hmean]
    simp [vMixNN, dropLastVolume, vMix, Fin.castLE]
    try norm_num
  have hstd : temporalStd vMixNN ⟨0, by decide⟩ ⟨0, by decide⟩ ⟨0, by decide⟩ = 1 := by
    rw [temporalStd, hvar]
    simp
  rw [snrTsnrMap, tsnr, hstd, hmean]
  norm_num

lemma vMixNN_tsnr_z1 :
    snrTsnrMap vMixNN ⟨0, by decide⟩ ⟨0, by decide⟩ ⟨1, by decide⟩ = 0 := by
  have hmean : temporalMean vMixNN ⟨0, by decide⟩ ⟨0, by decide⟩ ⟨1, by decide⟩ = 5 := by
    rw [temporalMean_two vMixNN rfl]
    simp [vMixNN, dropLastVolume, vMix, Fin.castLE]
    try norm_num
  have hvar : temporalVar vMixNN ⟨0, by decide⟩ ⟨0, by decide⟩ ⟨1, by decide⟩ = 0 := by
    rw [temporalVar_two vMixNN rfl, hmean]
    simp [vMixNN, dropLastVolume, vMix, Fin.castLE]
    try norm_num
  have hstd : temporalStd vMixNN ⟨0, by decide⟩ ⟨0, by decide⟩ ⟨1, by decide⟩ = 0 := by
    rw [temporalStd, hvar]
    simp
  rw [snrTsnrMap, tsnr, hstd]
  norm_num

/-- Counterexample for C6: on the truncated mixed volume the tSNR map entries
are 1 and 0; np.mean over the whole map gives 1/2 while the mean over the
nonzero entries alone gives 1, so the claimed nonzero-only reduction is not
what qa_with_metrics.py line 121 computes. -/
theorem mean_tsnr_not_nonzero_only :
    metricsMeanTsnr vMixNN ≠ meanNonzeroTsnrSpec vMixNN := by
  have hvox : allVoxels vMixNN =
      [(⟨0, by decide⟩, ⟨0, by decide⟩, ⟨0, by decide⟩),
       (⟨0, by decide⟩, ⟨0, by decide⟩, ⟨1, by decide⟩)] := by decide
  have hmap : (allVoxels vMixNN).map (fun p => snrTsnrMap vMixNN p.1 p.2.1 p.2.2) =
      [1, 0] := by
    rw [hvox]
    simp only [List.map_cons, List.map_nil]
    rw [vMixNN_tsnr_z0, vMixNN_tsnr_z1]
  rw [metricsMeanTsnr, meanNonzeroTsnrSpec, hmap]
  norm_num [npMeanR, List.filter_cons]


lemma npMeanR_of_ne_nil (l : List ℝ) (h : l ≠ []) :
    npMeanR l = some (l.sum / (l.length : ℝ)) := by
  cases l with
  | nil => exact absurd rfl h
  | cons a t => rfl

lemma mem_allVoxels_zero (v : Volume4D) :
    (⟨0, v.hX⟩, ⟨0, v.hY⟩, ⟨0, v.hZ⟩) ∈ allVoxels v := by
  refine List.mem_flatMap.2 ⟨⟨0, v.hX⟩, List.mem_finRange _, ?_⟩
  refine List.mem_flatMap.2 ⟨⟨0, v.hY⟩, List.mem_finRange _, ?_⟩
  exact List.mem_map.2 ⟨⟨0, v.hZ⟩, List.mem_finRange _, rfl⟩

lemma length_allVoxels (v : Volume4D) :
    (allVoxels v).length = v.X * v.Y * v.Z := by
  rw [allVoxels]
  simp only [List.length_flatMap, Function.comp_def, List.length_map, List.length_finRange,
    List.map_const', List.sum_const_nat, List.sum_replicate, smul_eq_mul, mul_assoc]

/-- C6 amended: the scalar mean_tsnr of qa_with_metrics.py is the plain
np.mean over every entry of the tSNR map (zero entries included, dividing by
the full voxel count), and masked_tsnr is the plain mean over all entries with
mask > 0 (zero entries included) - not the nonzero-only means of the claim. -/
theorem mean_tsnr_amended (v : Volume4D) (m : Fin v.X → Fin v.Y → Fin v.Z → ℚ) :
    metricsMeanTsnr v =
      some ((((allVoxels v).map fun p => snrTsnrMap v p.1 p.2.1 p.2.2).sum) /
        ((v.X * v.Y * v.Z : ℕ) : ℝ)) ∧
    (((allVoxels v).filter fun p => decide (0 < m p.1 p.2.1 p.2.2)) ≠ [] →
      metricsMaskedTsnr v m =
        some ((((allVoxels v).filter fun p => decide (0 < m p.1 p.2.1 p.2.2)).map
            (fun p => snrTsnrMap v p.1 p.2.1 p.2.2)).sum /
          (((allVoxels v).filter fun p => decide (0 < m p.1 p.2.1 p.2.2)).length : ℝ))) := by
  constructor
  · have hne : allVoxels v ≠ [] := List.ne_nil_of_mem (mem_allVoxels_zero v)
    rw [metricsMeanTsnr, npMeanR_of_ne_nil _ (by simpa using hne), List.length_map,
      length_allVoxels]
  · intro h
    rw [metricsMaskedTsnr, npMeanR_of_ne_nil _ (by simpa using h), List.length_map]

/-- Witness for the amended C6 at the all-zero volume with an all-one mask. -/
theorem mean_tsnr_amended_witness :
    ((allVoxels vZero).filter fun p =>
        decide ((0 : ℚ) < (fun _ _ _ => (1 : ℚ)) p.1 p.2.1 p.2.2)) ≠ [] ∧
    metricsMaskedTsnr vZero (fun _ _ _ => 1) =
      some ((((allVoxels vZero).filter fun p =>
            decide ((0 : ℚ) < (fun _ _ _ => (1 : ℚ)) p.1 p.2.1 p.2.2)).map
          (fun p => snrTsnrMap vZero p.1 p.2.1 p.2.2)).sum /
        (((allVoxels vZero).filter fun p =>
            decide ((0 : ℚ) < (fun _ _ _ => (1 : ℚ)) p.1 p.2.1 p.2.2)).length : ℝ)) := by
  have hne : ((allVoxels vZero).filter fun p =>
      decide ((0 : ℚ) < (fun _ _ _ => (1 : ℚ)) p.1 p.2.1 p.2.2)) ≠ [] := by
    refine List.ne_nil_of_mem (List.mem_filter.2 ⟨mem_allVoxels_zero vZero, ?_⟩)
    exact decide_eq_true (by norm_num)
  exact ⟨hne, (mean_tsnr_amended vZero (fun _ _ _ => 1)).2 hne⟩

lemma scale_mean (v : Volume4D) (c : ℚ) (x : Fin v.X) (y : Fin v.Y) (z : Fin v.Z) :
    temporalMean (scaleVolume c v) x y z = c * temporalMean v x y z := by
  simp only [temporalMean, scaleVolume]
  rw [← Finset.mul_sum, mul_div_assoc]

lemma scale_var (v : Volume4D) (c : ℚ) (x : Fin v.X) (y : Fin v.Y) (z : Fin v.Z) :
    temporalVar (scaleVolume c v) x y z = c ^ 2 * temporalVar v x y z := by
  rw [temporalVar, scale_mean]
  simp only [scaleVolume]
  have hsq : ∀ t : Fin v.T,
      (c * v.data x y z t - c * temporalMean v x y z) ^ 2 =
        c ^ 2 * (v.data x y z t - temporalMean v x y z) ^ 2 := fun t => by ring
  simp only [hsq]
  rw [← Finset.mul_sum, mul_div_assoc, temporalVar]

lemma scale_std (v : Volume4D) (c : ℚ) (hc : 0 ≤ c)
    (x : Fin v.X) (y : Fin v.Y) (z : Fin v.Z) :
    temporalStd (scaleVolume c v) x y z = (c : ℝ) * temporalStd v x y z := by
  rw [temporalStd, temporalStd, scale_var]
  push_cast
  rw [Real.sqrt_mul (by positivity), Real.sqrt_sq (by exact_mod_cast hc)]

/-- C10: the tSNR map is invariant under uniform positive rescaling of the
input data (both the temporal mean and the temporal standard deviation scale
by c, the zero-guard is preserved, and the ratio cancels), hence the reported
mean and masked tSNR values of the metrics pipeline are unchanged by the
Ernst pre-multiplication, whose factor is always positive. -/
theorem tsnr_scale_invariant (v : Volume4D) (c : ℚ) (hc : 0 < c) :
    (∀ (x : Fin v.X) (y : Fin v.Y) (z : Fin v.Z),
      tsnr (scaleVolume c v) x y z = tsnr v x y z) ∧
    metricsMeanTsnr (scaleVolume c v) = metricsMeanTsnr v ∧
    (∀ m : Fin v.X → Fin v.Y → Fin v.Z → ℚ,
      metricsMaskedTsnr (scaleVolume c v) m = metricsMaskedTsnr v m) ∧
    (∀ tr : Option ℚ, 0 < ernstScalingMetrics tr) := by
  have hpt : ∀ (x : Fin v.X) (y : Fin v.Y) (z : Fin v.Z),
      tsnr (scaleVolume c v) x y z = tsnr v x y z := by
    intro x y z
    by_cases h : temporalStd v x y z = 0
    · rw [tsnr, tsnr, scale_std v c hc.le, h, mul_zero]
      simp
    · have hc0 : (c : ℝ) ≠ 0 := by exact_mod_cast hc.ne'
      rw [tsnr, tsnr, scale_std v c hc.le, scale_mean,
        if_pos (mul_ne_zero hc0 h), if_pos h]
      push_cast
      rw [mul_div_mul_left _ _ hc0]
  have hlist : allVoxels (scaleVolume c v) = allVoxels v := rfl
  refine ⟨hpt, ?_, ?_, ?_⟩
  · rw [metricsMeanTsnr, metricsMeanTsnr, hlist]
    congr 1
    exact List.map_congr_left fun p _ => by rw [snrTsnrMap, snrTsnrMap, hpt]
  · intro m
    rw [metricsMaskedTsnr, metricsMaskedTsnr, hlist]
    congr 1
    exact List.map_congr_left fun p _ => by rw [snrTsnrMap, snrTsnrMap, hpt]
  · intro tr
    cases tr with
    | none => norm_num [ernstScalingMetrics]
    | some t =>
      rw [ernstScalingMetrics]
      split_ifs <;> norm_num

/-- Witness for C10 at the constant volume, scaled by 2. -/
theorem tsnr_scale_invariant_witness :
    (0 : ℚ) < 2 ∧ metricsMeanTsnr (scaleVolume 2 vConst) = metricsMeanTsnr vConst :=
  ⟨by norm_num, (tsnr_scale_invariant vConst 2 (by norm_num)).2.1⟩

end QA
